import Mathlib

/-!
# micromdm/dep: session lifecycle, request executor and pagination options

A shallow embedding of `dep.go` (`Config.session`, `Config.newSession`,
`depClient.NewRequest`, `depClient.Do`, `decodeJSON`) and of `devices.go`
(`Cursor`, `Limit`, `FetchDevices`, `SyncDevices`).

Conventions of the embedding.

* A Go `error` is its message (`Error := String`); a returned `error` is an
  `Option Error` (`none` is Go's `nil`).
* A method on a pointer receiver takes the pointee and returns the updated
  pointee next to its Go results.
* Everything outside the process (the wall clock read by `time.Now()`, the
  server reached through `http.Client.Do`, standard output and the fate of
  the writes to it) lives in a `World` value that is threaded through the code.  The world also keeps a `trace` of
  the HTTP exchanges and of the entries into `newSession`, `NewRequest`, `Do`
  and `decodeJSON`, so that "is not invoked" can be stated.
* Functions of the Go standard library and of `garyburd/go-oauth` whose code
  is not part of the repository are fields of a `Lib` record, and the JSON
  codec of a caller-chosen Go type is a parameter of the function using it.
-/

namespace Dep

/-! ## Data model -/

/-- Message of a Go `error` value. -/
abbrev Error := String

/-- Instant of `time.Time`, counted in nanoseconds from the zero `time.Time`
(the value of a field never assigned). -/
abbrev Time := Int

/-- Go `time.Minute`: a `Duration` counts nanoseconds. -/
def Minute : Int := 60 * 1000000000

/-- Go `t.After(u)`: whether `t` is strictly later than `u`. -/
def Time.After (t u : Time) : Bool := decide (u < t)

/-- Go `t.Add(d)`. -/
def Time.Add (t : Time) (d : Int) : Time := t + d

/-- Go `http.StatusOK`. -/
def StatusOK : Int := 200

/-- Go `mediaType` constant of `dep.go`. -/
def mediaType : String := "application/json;charset=UTF8"

/-- Go `libraryVersion` constant of `dep.go`. -/
def libraryVersion : String := "0.0.2"

/-- Go `userAgent` constant of `dep.go`. -/
def userAgent : String := "micromdm/" ++ libraryVersion

/-- Go `fetchDevicesPath` constant of `devices.go`. -/
def fetchDevicesPath : String := "server/devices"

/-- Go `syncDevicesPath` constant of `devices.go`. -/
def syncDevicesPath : String := "devices/sync"

/-- Go `url.URL`, kept as an uninterpreted text. -/
abbrev URL := String

/-- Go `http.Header`: the key/value lines in the order they were added. -/
abbrev Header := List (String × String)

/-- Go `http.Request`, reduced to the fields the client touches. -/
structure Request where
  Method : String
  URL : URL
  Body : String
  Header : Header
  deriving DecidableEq, Repr

/-- JSON document, as `encoding/json` sees a well-formed body. -/
inductive JSON where
  | null
  | bool (b : Bool)
  | number (n : Int)
  | string (s : String)
  | array (items : List JSON)
  | object (members : List (String × JSON))

/-- Response body: the bytes on the wire (what `ioutil.ReadAll` returns) and
what the JSON scanner makes of them, either the document they spell or the
error `Decoder.Decode` reports for bytes that do not start with one well-formed
JSON value. -/
structure Body where
  raw : String
  json : Except Error JSON

/-- Go `http.Response`, reduced to the fields the client reads. -/
structure Response where
  StatusCode : Int
  Status : String
  Body : Body

/-- Go `Config` of `dep.go`; `url` is the non-nil URL that `NewClient` leaves
in place. -/
structure Config where
  ConsumerKey : String
  ConsumerSecret : String
  AccessToken : String
  AccessSecret : String
  AuthSessionToken : String
  sessionExpires : Time
  url : URL
  debug : Bool
  deriving DecidableEq, Repr

/-- Go `depClient` of `dep.go` (the embedded services only point back at it). -/
structure depClient where
  BaseURL : URL
  UserAgent : String
  Config : Config
  deriving DecidableEq, Repr

/-- Go `deviceService` of `devices.go`. -/
structure deviceService where
  client : depClient
  deriving DecidableEq, Repr

/-- Go `oauth.Credentials`. -/
structure Credentials where
  Token : String
  Secret : String
  deriving DecidableEq, Repr

/-- Go `oauth.SignatureMethod`. -/
inductive SignatureMethod where
  | HMACSHA1
  | RSASHA1
  | PLAINTEXT
  deriving DecidableEq, Repr

/-- Go `oauth.Client`, reduced to the fields `newSession` fills in. -/
structure OAuthClient where
  SignatureMethod : SignatureMethod
  TokenRequestURI : String
  Credentials : Credentials
  deriving DecidableEq, Repr

/-- The local `authSessionToken` struct of `newSession`, whose one field is
tagged `json:"auth_session_token"`. -/
structure authSessionToken where
  AuthSessionToken : String
  deriving DecidableEq, Repr

/-- Decoder of `encoding/json` for one Go type: the error `Decode` returns and
the target as `Decode` leaves it. -/
abbrev Unmarshal (σ : Type) := JSON → σ → Option Error × σ

/-- Library code outside the repository, taken as given. -/
structure Lib where
  /-- Go `url.Parse`. -/
  urlParse : String → Except Error URL
  /-- Go `(*url.URL).ResolveReference`, base first. -/
  ResolveReference : URL → URL → URL
  /-- Go `(*url.URL).String`. -/
  urlString : URL → String
  /-- Go `http.NewRequest` on a method, a URL text and the bytes of the body. -/
  httpNewRequest : String → String → String → Except Error Request
  /-- Go `(*oauth.Client).SetAuthorizationHeader` on a header, the credentials,
  the method, the URL and the encoded form: the error and the header after the
  call.  The nonce and the timestamp it draws are part of the function. -/
  SetAuthorizationHeader :
    OAuthClient → Header → Credentials → String → URL → String → Option Error × Header
  /-- Case folding by which `encoding/json` matches an object key with a field
  name when they are not equal. -/
  equalFold : String → String → Bool
  /-- Go `textproto.CanonicalMIMEHeaderKey`, the spelling under which
  `http.Header` files a key. -/
  CanonicalMIMEHeaderKey : String → String

/-- Go `Header.Add`: one more value under the canonical spelling of the key. -/
def Header.Add (h : Header) (L : Lib) (key value : String) : Header :=
  h ++ [(L.CanonicalMIMEHeaderKey key, value)]

/-! ## The world outside the process -/

/-- Functions of the repository whose entry is recorded in the trace. -/
inductive Fn where
  | newSession
  | NewRequest
  | Do
  | decodeJSON
  deriving DecidableEq, Repr

/-- One entry of the trace. -/
inductive Event where
  | call (f : Fn)
  | roundTrip (req : Request)
  deriving DecidableEq, Repr

/-- State of everything outside the process.  `clock` lists the successive
readings `time.Now()` gives to the repository code and `ticks` counts those
already taken; `net` gives the outcome of the successive `http.Client.Do`
calls, which may depend on the request, and `sends` counts those already made;
`stdout` lists the chunks written to standard output; `tee` says, for a
decoder reading given bytes through `io.TeeReader(body, os.Stdout)` after so
many earlier chunks, how many of the bytes reach standard output and which
error, if any, a failing write makes `Decode` return. -/
structure World where
  clock : Nat → Time
  ticks : Nat
  net : Nat → Request → Except Error Response
  sends : Nat
  stdout : List String
  tee : Nat → String → Nat × Option Error
  trace : List Event

/-- Record the entry into a function. -/
def World.enter (w : World) (f : Fn) : World :=
  { w with trace := w.trace ++ [Event.call f] }

/-- Go `time.Now()`. -/
def timeNow (w : World) : Time × World :=
  (w.clock w.ticks, { w with ticks := w.ticks + 1 })

/-- Go `(*http.Client).Do`: the request goes out and the next scripted outcome
comes back. -/
def clientDo (w : World) (req : Request) : Except Error Response × World :=
  (w.net w.sends req,
    { w with sends := w.sends + 1, trace := w.trace ++ [Event.roundTrip req] })

/-- Number of entries into `newSession` recorded so far. -/
def World.bootstraps (w : World) : Nat :=
  w.trace.count (Event.call Fn.newSession)

/-- Number of entries into a function recorded so far. -/
def World.calls (w : World) (f : Fn) : Nat :=
  w.trace.count (Event.call f)

/-! ## Session lifecycle and request executor (`dep.go`) -/

/-- Decoding of a JSON document into the `authSessionToken` struct, as
`encoding/json` does it for a struct with one string field: `null` leaves the
target alone, an object stores every string found under a matching key (later
members overwrite earlier ones), a `null` member is skipped, a member of
another kind is skipped and the first such mismatch is the error returned, and
a document that is not an object is a mismatch.  The wording of the messages
is immaterial. -/
def unmarshalSession (L : Lib) : Unmarshal authSessionToken := fun doc into =>
  match doc with
  | JSON.null => (none, into)
  | JSON.object members =>
    members.foldl
      (fun (acc : Option Error × authSessionToken) (member : String × JSON) =>
        if member.1 == "auth_session_token" || L.equalFold "auth_session_token" member.1 then
          match member.2 with
          | JSON.string s => (acc.1, { AuthSessionToken := s })
          | JSON.null => acc
          | _ =>
            (acc.1 <|> some "json: cannot unmarshal into Go struct field auth_session_token of type string",
              acc.2)
        else acc)
      (none, into)
  | _ => (some "json: cannot unmarshal into Go value of type struct", into)

/-- Go `(*json.Decoder).Decode` on a reader of the body: the scanner rejects
malformed bytes before the target is touched. -/
def Decode {σ : Type} (unmarshal : Unmarshal σ) (body : Body) (into : σ) : Option Error × σ :=
  match body.json with
  | Except.error err => (some err, into)
  | Except.ok doc => unmarshal doc into

/-- Go `decodeJSON` of `dep.go`.  With `debug` the decoder reads through the
tee: the bytes it pulls are mirrored to standard output, and a write that
fails in a way the decoder reports ends the decoding with that error before
the target is touched. -/
def decodeJSON {σ : Type} (unmarshal : Unmarshal σ) (debug : Bool) (body : Body) (into : σ)
    (w : World) : Option Error × σ × World :=
  let w := w.enter Fn.decodeJSON
  if debug then
    let echo := w.tee w.stdout.length body.raw
    let w := { w with stdout := w.stdout ++ [(body.raw.take echo.1)] }
    match echo.2 with
    | some err => (some err, into, w)
    | none =>
      let r := Decode unmarshal body into
      (r.1, r.2, w)
  else
    let r := Decode unmarshal body into
    (r.1, r.2, w)

/-- Go `(*Config).newSession` of `dep.go`. -/
def newSession (L : Lib) (c : Config) (w : World) : Option Error × Config × World :=
  let w := w.enter Fn.newSession
  let authSessionToken : authSessionToken := { AuthSessionToken := "" }
  let consumerCredentials : Credentials := { Token := c.ConsumerKey, Secret := c.ConsumerSecret }
  let accessCredentials : Credentials := { Token := c.AccessToken, Secret := c.AccessSecret }
  let form : String := ""
  match L.urlParse "/session" with
  | Except.error err => (some err, c, w)
  | Except.ok rel =>
    let sessionURL := L.ResolveReference c.url rel
    let oauthClient : OAuthClient :=
      { SignatureMethod := SignatureMethod.HMACSHA1,
        TokenRequestURI := L.urlString sessionURL,
        Credentials := consumerCredentials }
    match L.httpNewRequest "GET" oauthClient.TokenRequestURI form with
    | Except.error err => (some err, c, w)
    | Except.ok req =>
      match L.SetAuthorizationHeader oauthClient req.Header accessCredentials "GET" req.URL form with
      | (some err, _) => (some err, c, w)
      | (none, header) =>
        let header := header.Add L "User-Agent" userAgent
        let header := header.Add L "Content-Type" mediaType
        let header := header.Add L "Accept" mediaType
        let header := header.Add L "X-Server-Protocol-Version" "2"
        let req := { req with Header := header }
        match clientDo w req with
        | (Except.error err, w) => (some err, c, w)
        | (Except.ok resp, w) =>
          if resp.StatusCode ≠ StatusOK then
            (some ("Error establishing DEP session: " ++ resp.Status), c, w)
          else
            match decodeJSON (unmarshalSession L) c.debug resp.Body authSessionToken w with
            | (some err, _, w) => (some err, c, w)
            | (none, authSessionToken, w) =>
              let c := { c with AuthSessionToken := authSessionToken.AuthSessionToken }
              let (now, w) := timeNow w
              let c := { c with sessionExpires := now.Add (Minute * 3) }
              (none, c, w)

/-- Go `(*Config).session` of `dep.go`. -/
def session (L : Lib) (c : Config) (w : World) : Option Error × Config × World :=
  let first : Option Error × Config × World :=
    if c.AuthSessionToken == "" then newSession L c w else (none, c, w)
  match first with
  | (some err, c, w) => (some err, c, w)
  | (none, c, w) =>
    let (now, w) := timeNow w
    if now.After c.sessionExpires then
      match newSession L c w with
      | (some err, c, w) => (some err, c, w)
      | (none, c, w) => (none, c, w)
    else
      (none, c, w)

/-- Go `(*depClient).NewRequest` of `dep.go`; `encode` is the JSON encoder of
the body type and `none` is a `nil` body. -/
def NewRequest {β : Type} (L : Lib) (encode : β → Except Error String) (c : depClient)
    (method urlStr : String) (body : Option β) (w : World) : Except Error Request × World :=
  let w := w.enter Fn.NewRequest
  match L.urlParse urlStr with
  | Except.error err => (Except.error err, w)
  | Except.ok rel =>
    let u := L.ResolveReference c.BaseURL rel
    let encoded : Except Error String :=
      match body with
      | none => Except.ok ""
      | some b => encode b
    match encoded with
    | Except.error err => (Except.error err, w)
    | Except.ok buf =>
      match L.httpNewRequest method (L.urlString u) buf with
      | Except.error err => (Except.error err, w)
      | Except.ok req =>
        let header := req.Header.Add L "User-Agent" userAgent
        let header := header.Add L "Content-Type" mediaType
        let header := header.Add L "Accept" mediaType
        let header := header.Add L "X-Server-Protocol-Version" "2"
        (Except.ok { req with Header := header }, w)

/-- Go `(*depClient).Do` of `dep.go`; `unmarshal` is the JSON decoder of the
type behind `into`.  The results are the error, the client, the request and
the target as the call leaves them, and the world. -/
def Do {σ : Type} (L : Lib) (unmarshal : Unmarshal σ) (c : depClient) (req : Request) (into : σ)
    (w : World) : Option Error × depClient × Request × σ × World :=
  let w := w.enter Fn.Do
  match session L c.Config w with
  | (some err, config, w) => (some err, { c with Config := config }, req, into, w)
  | (none, config, w) =>
    let c := { c with Config := config }
    let req := { req with Header := req.Header.Add L "X-ADM-Auth-Session" c.Config.AuthSessionToken }
    match clientDo w req with
    | (Except.error err, w) => (some err, c, req, into, w)
    | (Except.ok resp, w) =>
      if resp.StatusCode ≠ StatusOK then
        let body := resp.Body.raw
        (some ("DEP API Error: " ++ body), c, req, into, w)
      else
        match decodeJSON unmarshal c.Config.debug resp.Body into w with
        | (err, into, w) => (err, c, req, into, w)

/-! ## Pagination options (`devices.go`) -/

/-- Go `deviceRequestOpts` of `devices.go`; Go `int` is taken unbounded. -/
structure deviceRequestOpts where
  Cursor : String
  Limit : Int
  deriving DecidableEq, Repr

/-- Go `DeviceRequestOption`, a `func(*deviceRequestOpts) error`: the returned
error and the record as the call leaves it. -/
abbrev DeviceRequestOption := deviceRequestOpts → Option Error × deviceRequestOpts

/-- Go `Cursor` of `devices.go`. -/
def Cursor (cursor : String) : DeviceRequestOption := fun opts =>
  (none, { opts with Cursor := cursor })

/-- Go `Limit` of `devices.go`. -/
def Limit (limit : Int) : DeviceRequestOption := fun opts =>
  if limit > 1000 then
    (some "Limit must not be higher than 1000", opts)
  else
    (none, { opts with Limit := limit })

/-- The loop `for _, option := range opts` shared by `FetchDevices` and
`SyncDevices`: apply the options in order, stop at the first error. -/
def applyOptions : List DeviceRequestOption → deviceRequestOpts →
    Option Error × deviceRequestOpts
  | [], request => (none, request)
  | option :: rest, request =>
    match option request with
    | (some err, request) => (some err, request)
    | (none, request) => applyOptions rest request

/-- Record `&deviceRequestOpts{}` that `FetchDevices` starts from. -/
def fetchStart : deviceRequestOpts := { Cursor := "", Limit := 0 }

/-- Record `&deviceRequestOpts{Cursor: cursor}` that `SyncDevices` starts from. -/
def syncStart (cursor : String) : deviceRequestOpts := { Cursor := cursor, Limit := 0 }

/-! ## Device service (`devices.go`) -/

/-- Go `Device` of `devices.go`. -/
structure Device where
  SerialNumber : String
  Model : String
  Description : String
  Color : String
  AssetTag : String
  ProfileStatus : String
  ProfileUUID : String
  ProfileAssignTime : Time
  ProfilePushTime : Time
  DeviceAssignedDate : Time
  DeviceAssignedBy : String
  OS : String
  DeviceFamily : String
  OpType : String
  OpDate : Time
  deriving DecidableEq, Repr

/-- Go `DeviceResponse` of `devices.go`. -/
structure DeviceResponse where
  Devices : List Device
  Cursor : String
  FetchedUntil : Time
  MoreToFollow : Bool
  deriving DecidableEq, Repr

/-- Zero value of `var response DeviceResponse`. -/
def DeviceResponse.zero : DeviceResponse :=
  { Devices := [], Cursor := "", FetchedUntil := 0, MoreToFollow := false }

/-- Go `deviceService.FetchDevices` of `devices.go`; `encode` and `unmarshal`
are the JSON codecs of `deviceRequestOpts` and `DeviceResponse`.  The Go
results come first (`none` is the `nil` response). -/
def FetchDevices (L : Lib) (encode : deviceRequestOpts → Except Error String)
    (unmarshal : Unmarshal DeviceResponse) (s : deviceService)
    (opts : List DeviceRequestOption) (w : World) :
    (Option DeviceResponse × Option Error) × deviceService × World :=
  match applyOptions opts fetchStart with
  | (some err, _) => ((none, some err), s, w)
  | (none, request) =>
    let response := DeviceResponse.zero
    match NewRequest L encode s.client "POST" fetchDevicesPath (some request) w with
    | (Except.error err, w) => ((none, some err), s, w)
    | (Except.ok req, w) =>
      match Do L unmarshal s.client req response w with
      | (some err, client, _, _, w) => ((none, some err), { client := client }, w)
      | (none, client, _, response, w) => ((some response, none), { client := client }, w)

/-- Go `deviceService.SyncDevices` of `devices.go`. -/
def SyncDevices (L : Lib) (encode : deviceRequestOpts → Except Error String)
    (unmarshal : Unmarshal DeviceResponse) (s : deviceService) (cursor : String)
    (opts : List DeviceRequestOption) (w : World) :
    (Option DeviceResponse × Option Error) × deviceService × World :=
  match applyOptions opts (syncStart cursor) with
  | (some err, _) => ((none, some err), s, w)
  | (none, request) =>
    let response := DeviceResponse.zero
    match NewRequest L encode s.client "POST" syncDevicesPath (some request) w with
    | (Except.error err, w) => ((none, some err), s, w)
    | (Except.ok req, w) =>
      match Do L unmarshal s.client req response w with
      | (some err, client, _, _, w) => ((none, some err), { client := client }, w)
      | (none, client, _, response, w) => ((some response, none), { client := client }, w)

/-! ## Harness: repeated calls and worked inputs -/

/-- Call `session` so many times in a row, stopping at the first error. -/
def sessionCalls (L : Lib) : Nat → Config → World → Option Error × Config × World
  | 0, c, w => (none, c, w)
  | n + 1, c, w =>
    match session L c w with
    | (some err, c, w) => (some err, c, w)
    | (none, c, w) => sessionCalls L n c w

/-- The part of `session` from the expiry check on (used to reason about
`session` by cases; `session_of_token` and `session_of_no_token` relate the
two). -/
def expiryCheck (L : Lib) (c : Config) (w : World) : Option Error × Config × World :=
  if c.sessionExpires < w.clock w.ticks then
    newSession L c { w with ticks := w.ticks + 1 }
  else (none, c, { w with ticks := w.ticks + 1 })

/-- The latest reading of the clock taken so far. -/
def World.lastReading (w : World) : Time := w.clock (w.ticks - 1)

/-- Canonical spelling of a header key made of letters, digits and hyphens:
a letter is upper case at the start and after a hyphen, lower case elsewhere. -/
def canonicalChars : Bool → List Char → List Char
  | _, [] => []
  | upper, c :: cs =>
    (if upper then c.toUpper else c.toLower) :: canonicalChars (c == '-') cs

/-- A stand-in for the libraries in the worked inputs: every URL parses,
resolution appends, request construction and signing succeed, header keys of
letters, digits and hyphens get their canonical spelling. -/
def demoLib : Lib :=
  { urlParse := fun s => Except.ok s,
    ResolveReference := fun base rel => base ++ rel,
    urlString := fun u => u,
    httpNewRequest := fun method url body =>
      Except.ok { Method := method, URL := url, Body := body, Header := [] },
    SetAuthorizationHeader := fun _ header _ _ _ _ =>
      (none, header ++ [("Authorization", "OAuth")]),
    equalFold := fun a b => a.toLower == b.toLower,
    CanonicalMIMEHeaderKey := fun key => String.mk (canonicalChars true key.data) }

/-- World whose clock gives the listed readings (then 0) and whose server gives
the listed outcomes (then refuses the connection). -/
def demoWorld (readings : List Time) (outcomes : List (Except Error Response)) : World :=
  { clock := fun i => readings.getD i 0,
    ticks := 0,
    net := fun i _ => outcomes.getD i (Except.error "connection refused"),
    sends := 0,
    stdout := [],
    tee := fun _ raw => (raw.length, none),
    trace := [] }

/-- A freshly constructed `Config`: no session token, zero `sessionExpires`. -/
def freshConfig : Config :=
  { ConsumerKey := "CK", ConsumerSecret := "CS", AccessToken := "AT", AccessSecret := "AS",
    AuthSessionToken := "", sessionExpires := 0, url := "http://localhost:9000", debug := false }

/-- A `Config` holding the token `tok` that expires at `expires`. -/
def liveConfig (tok : String) (expires : Time) : Config :=
  { freshConfig with AuthSessionToken := tok, sessionExpires := expires }

/-- The 200 response whose body is the JSON object with the single member
`auth_session_token` set to `tok`. -/
def tokenResponse (tok : String) : Response :=
  { StatusCode := 200, Status := "200 OK",
    Body := { raw := "\x7b\"auth_session_token\":\"" ++ tok ++ "\"\x7d",
              json := Except.ok (JSON.object [("auth_session_token", JSON.string tok)]) } }

/-- The 200 response whose body is the empty JSON object. -/
def emptyObjectResponse : Response :=
  { StatusCode := 200, Status := "200 OK",
    Body := { raw := "\x7b\x7d", json := Except.ok (JSON.object []) } }

/-- The 401 response with the plain-text body `invalid session`. -/
def invalidSessionResponse : Response :=
  { StatusCode := 401, Status := "401 Unauthorized",
    Body := { raw := "invalid session",
              json := Except.error "invalid character 'i' looking for beginning of value" } }

/-- World of the worked inputs in which the server issues the token `T1`:
readings 1000, 1001, 1002, then one 3 minutes after the first. -/
def issuingWorld : World :=
  demoWorld [1000, 1001, 1002, 180000001000] [Except.ok (tokenResponse "T1")]

/-- World of the worked inputs in which the server answers 401. -/
def rejectingWorld : World :=
  demoWorld [1000, 1001] [Except.ok invalidSessionResponse]

/-- A decoder for `DeviceResponse` that stores the cursor of a string document
and nothing else, for the worked inputs. -/
def demoUnmarshal : Unmarshal DeviceResponse := fun doc into =>
  match doc with
  | JSON.string s => (none, { into with Cursor := s })
  | _ => (some "json: cannot unmarshal", into)

/-- An encoder for `deviceRequestOpts` for the worked inputs. -/
def demoEncode (r : deviceRequestOpts) : Except Error String :=
  Except.ok (r.Cursor ++ ":" ++ toString r.Limit)

/-- A request as `NewRequest` hands it to `Do` in the worked inputs. -/
def demoRequest : Request :=
  { Method := "POST", URL := "http://localhost:9000/server/devices", Body := "", Header := [] }

/-- A client around a `Config`, as `NewClient` builds it. -/
def clientOf (c : Config) : depClient :=
  { BaseURL := c.url, UserAgent := userAgent, Config := c }

/-! ## Pagination options: theorems -/

theorem applyOptions_append (done rest : List DeviceRequestOption) (r : deviceRequestOpts)
    (h : (applyOptions done r).1 = none) :
    applyOptions (done ++ rest) r = applyOptions rest (applyOptions done r).2 := by
  induction done generalizing r with
  | nil => rfl
  | cons o os ih =>
    simp only [List.cons_append, applyOptions] at h ⊢
    rcases hr : o r with ⟨_ | e, r1⟩
    · simp only [hr] at h ⊢
      exact ih r1 h
    · simp [hr] at h

/-- C8. `Limit n` returns an error exactly when `n > 1000`; when it succeeds
the record has `Limit = n` and its `Cursor` is kept, when it fails the record
is left as it was.  `Cursor c` never fails, sets `Cursor` to `c` and keeps
`Limit`. -/
theorem Limit_Cursor_validation (n : Int) (c : String) (r : deviceRequestOpts) :
    ((Limit n r).1 ≠ none ↔ n > 1000) ∧
    (n ≤ 1000 → Limit n r = (none, { Cursor := r.Cursor, Limit := n })) ∧
    (n > 1000 → (Limit n r).2 = r) ∧
    Cursor c r = (none, { Cursor := c, Limit := r.Limit }) := by
  refine ⟨?_, ?_, ?_, rfl⟩
  · by_cases h : n > 1000 <;> simp [Limit, h]
  · intro h
    have h' : ¬ n > 1000 := not_lt.mpr h
    simp [Limit, h']
  · intro h
    simp [Limit, h]

/-- Instance of `Limit_Cursor_validation`: 1, 1000 and -5 are accepted, 1001 is rejected. -/
theorem Limit_Cursor_validation_witness :
    Limit 1 (syncStart "c0") = (none, { Cursor := "c0", Limit := 1 }) ∧
    Limit 1000 (syncStart "c0") = (none, { Cursor := "c0", Limit := 1000 }) ∧
    Limit (-5) (syncStart "c0") = (none, { Cursor := "c0", Limit := -5 }) ∧
    (Limit 1001 (syncStart "c0")).2 = syncStart "c0" :=
  ⟨(Limit_Cursor_validation 1 "" (syncStart "c0")).2.1 (by decide),
   (Limit_Cursor_validation 1000 "" (syncStart "c0")).2.1 (by decide),
   (Limit_Cursor_validation (-5) "" (syncStart "c0")).2.1 (by decide),
   (Limit_Cursor_validation 1001 "" (syncStart "c0")).2.2.1 (by decide)⟩

/-- C9. When the options before some option all succeed and that option
returns an error, `FetchDevices` and `SyncDevices` return a nil response and
that error, and leave the service (with the session fields of its `Config`) and
the world exactly as they were: no entry into `NewRequest`, `Do` or
`newSession` is recorded and no request is sent. -/
theorem devices_fail_fast (L : Lib) (encode : deviceRequestOpts → Except Error String)
    (unmarshal : Unmarshal DeviceResponse) (s : deviceService) (w : World) (cursor : String)
    (done rest : List DeviceRequestOption) (bad : DeviceRequestOption) (err : Error) :
    ((applyOptions done fetchStart).1 = none →
      (bad (applyOptions done fetchStart).2).1 = some err →
      FetchDevices L encode unmarshal s (done ++ bad :: rest) w = ((none, some err), s, w)) ∧
    ((applyOptions done (syncStart cursor)).1 = none →
      (bad (applyOptions done (syncStart cursor)).2).1 = some err →
      SyncDevices L encode unmarshal s cursor (done ++ bad :: rest) w
        = ((none, some err), s, w)) := by
  constructor
  · intro h1 h2
    have h := applyOptions_append done (bad :: rest) fetchStart h1
    rcases hb : bad (applyOptions done fetchStart).2 with ⟨e, r1⟩
    rw [hb] at h2
    simp only at h2
    subst h2
    simp only [FetchDevices, h, applyOptions, hb]
  · intro h1 h2
    have h := applyOptions_append done (bad :: rest) (syncStart cursor) h1
    rcases hb : bad (applyOptions done (syncStart cursor)).2 with ⟨e, r1⟩
    rw [hb] at h2
    simp only at h2
    subst h2
    simp only [SyncDevices, h, applyOptions, hb]

/-- Instance of `devices_fail_fast`: `Limit 1001` in second place after `Cursor "c"`. -/
theorem devices_fail_fast_witness :
    (applyOptions [Cursor "c"] fetchStart).1 = none ∧
    (Limit 1001 (applyOptions [Cursor "c"] fetchStart).2).1
      = some "Limit must not be higher than 1000" ∧
    FetchDevices demoLib demoEncode demoUnmarshal { client := clientOf freshConfig }
        ([Cursor "c"] ++ Limit 1001 :: [Limit 5]) issuingWorld
      = ((none, some "Limit must not be higher than 1000"),
          { client := clientOf freshConfig }, issuingWorld) ∧
    (applyOptions [Cursor "c"] (syncStart "c0")).1 = none ∧
    (Limit 1001 (applyOptions [Cursor "c"] (syncStart "c0")).2).1
      = some "Limit must not be higher than 1000" ∧
    SyncDevices demoLib demoEncode demoUnmarshal { client := clientOf freshConfig } "c0"
        ([Cursor "c"] ++ Limit 1001 :: [Limit 5]) issuingWorld
      = ((none, some "Limit must not be higher than 1000"),
          { client := clientOf freshConfig }, issuingWorld) :=
  ⟨rfl, rfl,
   (devices_fail_fast demoLib demoEncode demoUnmarshal { client := clientOf freshConfig }
      issuingWorld "c0" [Cursor "c"] [Limit 5] (Limit 1001)
      "Limit must not be higher than 1000").1 rfl rfl,
   rfl, rfl,
   (devices_fail_fast demoLib demoEncode demoUnmarshal { client := clientOf freshConfig }
      issuingWorld "c0" [Cursor "c"] [Limit 5] (Limit 1001)
      "Limit must not be higher than 1000").2 rfl rfl⟩

/-- C10. On any starting record and for limits not above 1000: an option
applied twice gives what it gives applied once; `Cursor` then `Limit` gives
the same record as `Limit` then `Cursor`; of two `Cursor` options or two
`Limit` options the later value is the one kept; and a `Cursor` option
replaces the positional cursor of `SyncDevices`. -/
theorem options_idempotent_commutative_last_wins
    (c c0 c1 c2 : String) (n n1 n2 : Int) (r : deviceRequestOpts)
    (hn : n ≤ 1000) (hn1 : n1 ≤ 1000) (hn2 : n2 ≤ 1000) :
    applyOptions [Cursor c, Cursor c] r = applyOptions [Cursor c] r ∧
    applyOptions [Limit n, Limit n] r = applyOptions [Limit n] r ∧
    applyOptions [Cursor c, Limit n] r = applyOptions [Limit n, Cursor c] r ∧
    applyOptions [Cursor c, Limit n] r = (none, { Cursor := c, Limit := n }) ∧
    applyOptions [Cursor c1, Cursor c2] r = (none, { Cursor := c2, Limit := r.Limit }) ∧
    applyOptions [Limit n1, Limit n2] r = (none, { Cursor := r.Cursor, Limit := n2 }) ∧
    applyOptions [Cursor c] (syncStart c0) = (none, { Cursor := c, Limit := 0 }) := by
  have h : ¬ n > 1000 := not_lt.mpr hn
  have h1 : ¬ n1 > 1000 := not_lt.mpr hn1
  have h2 : ¬ n2 > 1000 := not_lt.mpr hn2
  simp [applyOptions, Cursor, Limit, h, h1, h2, syncStart]

/-- Instance of `options_idempotent_commutative_last_wins` on the record
`FetchDevices` starts from. -/
theorem options_idempotent_commutative_last_wins_witness :
    applyOptions [Cursor "a", Cursor "a"] fetchStart = applyOptions [Cursor "a"] fetchStart ∧
    applyOptions [Limit 1000, Limit 1000] fetchStart = applyOptions [Limit 1000] fetchStart ∧
    applyOptions [Cursor "a", Limit 1000] fetchStart
      = applyOptions [Limit 1000, Cursor "a"] fetchStart ∧
    applyOptions [Cursor "a", Limit 1000] fetchStart = (none, { Cursor := "a", Limit := 1000 }) ∧
    applyOptions [Cursor "b", Cursor "c"] fetchStart
      = (none, { Cursor := "c", Limit := fetchStart.Limit }) ∧
    applyOptions [Limit 7, Limit (-2)] fetchStart
      = (none, { Cursor := fetchStart.Cursor, Limit := -2 }) ∧
    applyOptions [Cursor "a"] (syncStart "z") = (none, { Cursor := "a", Limit := 0 }) :=
  options_idempotent_commutative_last_wins "a" "z" "b" "c" 1000 7 (-2) fetchStart
    (by decide) (by decide) (by decide)

/-! ## Session lifecycle: theorems -/

/-- A nil error of `Decode` means the body is a document the decoder accepted. -/
theorem Decode_ok {σ : Type} (u : Unmarshal σ) (body : Body) (into : σ)
    (h : (Decode u body into).1 = none) :
    ∃ doc, body.json = Except.ok doc ∧ u doc into = (none, (Decode u body into).2) := by
  unfold Decode at h ⊢
  cases hj : body.json with
  | error e => simp [hj] at h
  | ok doc =>
    simp only [hj] at h ⊢
    exact ⟨doc, rfl, Prod.ext h rfl⟩

/-- Effect of `decodeJSON` on the world, and what a nil error means. -/
theorem decodeJSON_spec {σ : Type} (u : Unmarshal σ) (debug : Bool) (body : Body) (into : σ)
    (w : World) :
    (decodeJSON u debug body into w).2.2.clock = w.clock ∧
    (decodeJSON u debug body into w).2.2.net = w.net ∧
    (decodeJSON u debug body into w).2.2.ticks = w.ticks ∧
    (decodeJSON u debug body into w).2.2.sends = w.sends ∧
    (decodeJSON u debug body into w).2.2.bootstraps = w.bootstraps ∧
    ((decodeJSON u debug body into w).1 = none →
      ∃ doc, body.json = Except.ok doc ∧ u doc into = (none, (decodeJSON u debug body into w).2.1)) := by
  unfold decodeJSON
  cases debug
  · simp only [Bool.false_eq_true, if_false]
    refine ⟨rfl, rfl, rfl, rfl, ?_, fun h => Decode_ok u body into h⟩
    simp [World.enter, World.bootstraps, List.count_append, List.count_singleton]
  · simp only [if_true]
    cases ht : ((w.enter Fn.decodeJSON).tee (w.enter Fn.decodeJSON).stdout.length body.raw).2 with
    | some e =>
      simp [World.enter, World.bootstraps, List.count_append, List.count_singleton]
    | none =>
      refine ⟨rfl, rfl, rfl, rfl, ?_, fun h => Decode_ok u body into h⟩
      simp [World.enter, World.bootstraps, List.count_append, List.count_singleton]

/-- The entry `decodeJSON` adds to the trace. -/
theorem decodeJSON_trace {σ : Type} (u : Unmarshal σ) (debug : Bool) (body : Body) (into : σ)
    (w : World) :
    (decodeJSON u debug body into w).2.2.trace = w.trace ++ [Event.call Fn.decodeJSON] := by
  unfold decodeJSON
  cases debug
  · rfl
  · simp only [if_true]
    cases ht : ((w.enter Fn.decodeJSON).tee (w.enter Fn.decodeJSON).stdout.length body.raw).2 <;>
      rfl

/-- The facts of `decodeJSON_spec` for a `decodeJSON` call given by an equation. -/
theorem decodeJSON_eq {σ : Type} {u : Unmarshal σ} {debug : Bool} {body : Body} {into : σ}
    {w : World} {e : Option Error} {r : σ} {w1 : World}
    (h : decodeJSON u debug body into w = (e, r, w1)) :
    w1.clock = w.clock ∧ w1.net = w.net ∧ w1.ticks = w.ticks ∧ w1.sends = w.sends ∧
    w1.bootstraps = w.bootstraps ∧
    (e = none → ∃ doc, body.json = Except.ok doc ∧ u doc into = (none, r)) := by
  have hd := decodeJSON_spec u debug body into w
  rw [h] at hd
  exact hd

/-- The entry `decodeJSON` adds to the trace, for a call given by an equation. -/
theorem decodeJSON_trace_eq {σ : Type} {u : Unmarshal σ} {debug : Bool} {body : Body} {into : σ}
    {w : World} {e : Option Error} {r : σ} {w1 : World}
    (h : decodeJSON u debug body into w = (e, r, w1)) :
    w1.trace = w.trace ++ [Event.call Fn.decodeJSON] := by
  have ht := decodeJSON_trace u debug body into w
  rw [h] at ht
  exact ht

/-- Effect of `newSession` on the `Config` and the world, by outcome. -/
theorem newSession_spec (L : Lib) (c : Config) (w : World) :
    (newSession L c w).2.2.clock = w.clock ∧
    (newSession L c w).2.2.net = w.net ∧
    (newSession L c w).2.2.bootstraps = w.bootstraps + 1 ∧
    ((newSession L c w).1 ≠ none →
      (newSession L c w).2.1 = c ∧ (newSession L c w).2.2.ticks = w.ticks) ∧
    ((newSession L c w).1 = none →
      (newSession L c w).2.2.ticks = w.ticks + 1 ∧
      (newSession L c w).2.2.sends = w.sends + 1 ∧
      (newSession L c w).2.1 =
        { c with AuthSessionToken := (newSession L c w).2.1.AuthSessionToken,
                 sessionExpires := w.clock w.ticks + 180000000000 } ∧
      ∃ req resp doc, w.net w.sends req = Except.ok resp ∧ resp.StatusCode = 200 ∧
        resp.Body.json = Except.ok doc ∧
        unmarshalSession L doc { AuthSessionToken := "" }
          = (none, { AuthSessionToken := (newSession L c w).2.1.AuthSessionToken }) ∧
        (newSession L c w).2.2.trace = w.trace ++
          [Event.call Fn.newSession, Event.roundTrip req, Event.call Fn.decodeJSON]) := by
  unfold newSession
  simp only [World.enter, clientDo, timeNow]
  split
  · simp [World.bootstraps, List.count_append]
  split
  · simp [World.bootstraps, List.count_append]
  split
  · simp [World.bootstraps, List.count_append]
  split
  · rename_i h
    simp only [Prod.mk.injEq] at h
    obtain ⟨-, rfl⟩ := h
    simp [World.bootstraps, List.count_append]
  rename_i h
  simp only [Prod.mk.injEq] at h
  obtain ⟨hnet, rfl⟩ := h
  split
  · simp [World.bootstraps, List.count_append]
  rename_i hstatus
  simp only [ne_eq, Decidable.not_not] at hstatus
  split
  · rename_i hdec
    obtain ⟨h1, h2, h3, -, h5, -⟩ := decodeJSON_eq hdec
    simp only [World.bootstraps] at h1 h2 h3 h5
    simp [h1, h2, h3, h5, World.bootstraps, List.count_append]
  · rename_i hdec
    obtain ⟨h1, h2, h3, h4, h5, h6⟩ := decodeJSON_eq hdec
    simp only [World.bootstraps] at h1 h2 h3 h4 h5
    obtain ⟨doc, hdoc, hu⟩ := h6 rfl
    have htr := decodeJSON_trace_eq hdec
    refine ⟨h1, h2, ?_, ?_, ?_⟩
    · simp [h5, World.bootstraps, List.count_append]
    · simp
    · intro _
      refine ⟨?_, h4, ?_, _, _, doc, hnet, hstatus, hdoc, hu, ?_⟩
      · simp [h3]
      · simp [h1, h3, Time.Add, Minute]
      · simp [htr]

/-- With a token, `session` is its expiry check. -/
theorem session_of_token (L : Lib) (c : Config) (w : World) (h : c.AuthSessionToken ≠ "") :
    session L c w = expiryCheck L c w := by
  unfold session expiryCheck
  simp only [beq_iff_eq, h, if_false, timeNow, Time.After, decide_eq_true_eq]
  split
  · split <;> simp_all
  · rfl

/-- Without a token, `session` is a bootstrap followed, on success, by the expiry check. -/
theorem session_of_no_token (L : Lib) (c : Config) (w : World) (h : c.AuthSessionToken = "") :
    session L c w =
      if (newSession L c w).1 = none then
        expiryCheck L (newSession L c w).2.1 (newSession L c w).2.2
      else newSession L c w := by
  unfold session expiryCheck
  simp only [beq_iff_eq, h, if_true, timeNow, Time.After, decide_eq_true_eq]
  rcases newSession L c w with ⟨_ | e, c1, w1⟩
  · simp only [if_true]
    split
    · split <;> simp_all
    · rfl
  · simp

/-- The expiry check past the expiry is a bootstrap. -/
theorem expiryCheck_stale (L : Lib) (c : Config) (w : World)
    (h : c.sessionExpires < w.clock w.ticks) :
    expiryCheck L c w = newSession L c { w with ticks := w.ticks + 1 } := by
  simp [expiryCheck, h]

/-- The expiry check up to the expiry only reads the clock. -/
theorem expiryCheck_fresh (L : Lib) (c : Config) (w : World)
    (h : ¬ c.sessionExpires < w.clock w.ticks) :
    expiryCheck L c w = (none, c, { w with ticks := w.ticks + 1 }) := by
  simp [expiryCheck, h]

/-- C4. `newSession` leaves the `Config` exactly as it was whenever it returns
an error.  When it returns no error, the server answered 200 with a body that
decoded without error, `AuthSessionToken` is the decoded token,
`sessionExpires` is the reading of the clock plus exactly 3 minutes, and no
other field changed. -/
theorem newSession_atomic (L : Lib) (c : Config) (w : World) :
    ((newSession L c w).1 ≠ none → (newSession L c w).2.1 = c) ∧
    ((newSession L c w).1 = none →
      (newSession L c w).2.1 =
        { c with AuthSessionToken := (newSession L c w).2.1.AuthSessionToken,
                 sessionExpires := w.clock w.ticks + 3 * Minute } ∧
      ∃ req resp doc, w.net w.sends req = Except.ok resp ∧ resp.StatusCode = 200 ∧
        resp.Body.json = Except.ok doc ∧
        unmarshalSession L doc { AuthSessionToken := "" }
          = (none, { AuthSessionToken := (newSession L c w).2.1.AuthSessionToken })) := by
  obtain ⟨-, -, -, herr, hok⟩ := newSession_spec L c w
  refine ⟨fun h => (herr h).1, fun h => ?_⟩
  obtain ⟨-, -, hc, req, resp, doc, h1, h2, h3, h4, -⟩ := hok h
  refine ⟨?_, req, resp, doc, h1, h2, h3, h4⟩
  have h3 : (3 : Int) * Minute = 180000000000 := by simp [Minute]
  rw [h3]
  exact hc

/-- Instance of `newSession_atomic`: a bootstrap answered 401 and one answered with a token. -/
theorem newSession_atomic_witness :
    ((newSession demoLib (liveConfig "old" 5) rejectingWorld).1 ≠ none ∧
      (newSession demoLib (liveConfig "old" 5) rejectingWorld).2.1 = liveConfig "old" 5) ∧
    ((newSession demoLib (liveConfig "old" 5) issuingWorld).1 = none ∧
      (newSession demoLib (liveConfig "old" 5) issuingWorld).2.1 =
        { liveConfig "old" 5 with
            AuthSessionToken :=
              (newSession demoLib (liveConfig "old" 5) issuingWorld).2.1.AuthSessionToken,
            sessionExpires := issuingWorld.clock issuingWorld.ticks + 3 * Minute }) :=
  ⟨⟨by decide,
     (newSession_atomic demoLib (liveConfig "old" 5) rejectingWorld).1 (by decide)⟩,
   ⟨rfl, ((newSession_atomic demoLib (liveConfig "old" 5) issuingWorld).2 rfl).1⟩⟩

/-- C2 (counterexample). With a non-empty token and the clock reading exactly
`sessionExpires`, `session` does not enter `newSession`, although the reading
is at or after `sessionExpires`. -/
theorem session_at_expiry_counterexample :
    ¬ ((demoWorld [100] []).bootstraps
          < (session demoLib (liveConfig "tok" 100) (demoWorld [100] [])).2.2.bootstraps ↔
        ((liveConfig "tok" 100).AuthSessionToken = "" ∨
          (liveConfig "tok" 100).sessionExpires
            ≤ (demoWorld [100] []).clock (demoWorld [100] []).ticks)) := by
  decide

/-- C2 (amended). `session` enters `newSession` if and only if
`AuthSessionToken` is empty or the reading of the clock is strictly after
`sessionExpires`. -/
theorem session_bootstrap_iff (L : Lib) (c : Config) (w : World) :
    w.bootstraps < (session L c w).2.2.bootstraps ↔
      (c.AuthSessionToken = "" ∨ c.sessionExpires < w.clock w.ticks) := by
  by_cases h : c.AuthSessionToken = ""
  · simp only [h, true_or, iff_true]
    rw [session_of_no_token L c w h]
    obtain ⟨-, -, hb, -, -⟩ := newSession_spec L c w
    by_cases hn : (newSession L c w).1 = none
    · simp only [hn, if_true]
      by_cases hx : (newSession L c w).2.1.sessionExpires
          < (newSession L c w).2.2.clock (newSession L c w).2.2.ticks
      · rw [expiryCheck_stale L _ _ hx]
        obtain ⟨-, -, hb2, -, -⟩ := newSession_spec L (newSession L c w).2.1
          { (newSession L c w).2.2 with ticks := (newSession L c w).2.2.ticks + 1 }
        rw [hb2]
        simp only [World.bootstraps] at hb ⊢
        omega
      · rw [expiryCheck_fresh L _ _ hx]
        simp only [World.bootstraps] at hb ⊢
        omega
    · simp only [hn, if_false]
      omega
  · simp only [h, false_or]
    rw [session_of_token L c w h]
    by_cases hx : c.sessionExpires < w.clock w.ticks
    · rw [expiryCheck_stale L _ _ hx]
      obtain ⟨-, -, hb, -, -⟩ := newSession_spec L c { w with ticks := w.ticks + 1 }
      simp only [World.bootstraps] at hb ⊢
      simp only [hx, iff_true]
      omega
    · rw [expiryCheck_fresh L _ _ hx]
      simp [hx, World.bootstraps]

/-- C5. When the token is absent or the expiry has passed, and `session`
returns no error, and (in the case of an absent token) the reading of the
clock at the expiry check is less than 3 minutes after the reading taken by
the bootstrap, then `session` entered `newSession` exactly once and exactly
one request was sent. -/
theorem session_renews_once (L : Lib) (c : Config) (w : World)
    (hstale : c.AuthSessionToken = "" ∨ c.sessionExpires < w.clock w.ticks)
    (hok : (session L c w).1 = none)
    (hclock : c.AuthSessionToken = "" → w.clock (w.ticks + 1) < w.clock w.ticks + 3 * Minute) :
    (session L c w).2.2.bootstraps = w.bootstraps + 1 ∧
    (session L c w).2.2.sends = w.sends + 1 := by
  have h3 : (3 : Int) * Minute = 180000000000 := by simp [Minute]
  by_cases h : c.AuthSessionToken = ""
  · rw [session_of_no_token L c w h] at hok ⊢
    obtain ⟨hck, -, hb, -, hs⟩ := newSession_spec L c w
    by_cases hn : (newSession L c w).1 = none
    · simp only [hn, if_true] at hok ⊢
      obtain ⟨ht, hsend, hc, -⟩ := hs hn
      have hx : ¬ (newSession L c w).2.1.sessionExpires
          < (newSession L c w).2.2.clock (newSession L c w).2.2.ticks := by
        have hlt := hclock h
        rw [h3] at hlt
        rw [hc, hck, ht]
        exact not_lt.mpr hlt.le
      rw [expiryCheck_fresh L _ _ hx]
      exact ⟨hb, hsend⟩
    · simp only [hn, if_false] at hok
  · have hx : c.sessionExpires < w.clock w.ticks := hstale.resolve_left h
    rw [session_of_token L c w h, expiryCheck_stale L _ _ hx] at hok ⊢
    obtain ⟨-, -, hb, -, hs⟩ := newSession_spec L c { w with ticks := w.ticks + 1 }
    obtain ⟨-, hsend, -, -⟩ := hs hok
    exact ⟨hb, hsend⟩

/-- Instance of `session_renews_once`: a fresh `Config`, the token issued at
1000 and the expiry check at 1001. -/
theorem session_renews_once_witness :
    (freshConfig.AuthSessionToken = "" ∨
      freshConfig.sessionExpires < issuingWorld.clock issuingWorld.ticks) ∧
    (session demoLib freshConfig issuingWorld).1 = none ∧
    (freshConfig.AuthSessionToken = "" →
      issuingWorld.clock (issuingWorld.ticks + 1)
        < issuingWorld.clock issuingWorld.ticks + 3 * Minute) ∧
    (session demoLib freshConfig issuingWorld).2.2.bootstraps = issuingWorld.bootstraps + 1 ∧
    (session demoLib freshConfig issuingWorld).2.2.sends = issuingWorld.sends + 1 :=
  ⟨Or.inl rfl, rfl, fun _ => by decide,
   session_renews_once demoLib freshConfig issuingWorld (Or.inl rfl) rfl (fun _ => by decide)⟩

/-- With a token and readings up to the expiry, `session` calls only read the clock. -/
theorem sessionCalls_fresh (L : Lib) (c : Config) (n : Nat) (w : World)
    (htok : c.AuthSessionToken ≠ "")
    (hfresh : ∀ i < n, w.clock (w.ticks + i) ≤ c.sessionExpires) :
    sessionCalls L n c w = (none, c, { w with ticks := w.ticks + n }) := by
  induction n generalizing w with
  | zero => rfl
  | succ k ih =>
    have h0 : ¬ c.sessionExpires < w.clock w.ticks := not_lt.mpr (hfresh 0 (Nat.succ_pos k))
    have hstep : session L c w = (none, c, { w with ticks := w.ticks + 1 }) := by
      rw [session_of_token L c w htok, expiryCheck_fresh L c w h0]
    have hrest := ih { w with ticks := w.ticks + 1 } (fun i hi => by
      have := hfresh (i + 1) (Nat.succ_lt_succ hi)
      simpa [Nat.add_assoc, Nat.add_comm 1 i] using this)
    simp only [sessionCalls, hstep, hrest, Nat.add_assoc, Nat.add_comm 1 k]

/-- C1. After a `newSession` that returned no error (its reading of the
clock being `t0`) and stored a non-empty token, any number `n` of `session`
calls in a row whose readings of the clock are at most `t0` plus 3 minutes all
return no error and leave the `Config` unchanged; the world differs only in
the number of clock readings taken, so no entry into `newSession` is recorded
and no request is sent.  (Readings earlier than `t0` are covered as well.) -/
theorem session_reuse (L : Lib) (c : Config) (w : World) (n : Nat)
    (hboot : (newSession L c w).1 = none)
    (htok : (newSession L c w).2.1.AuthSessionToken ≠ "")
    (hwin : ∀ i < n, w.clock (w.ticks + 1 + i) ≤ w.clock w.ticks + 3 * Minute) :
    sessionCalls L n (newSession L c w).2.1 (newSession L c w).2.2 =
      (none, (newSession L c w).2.1,
        { (newSession L c w).2.2 with ticks := (newSession L c w).2.2.ticks + n }) ∧
    (sessionCalls L n (newSession L c w).2.1 (newSession L c w).2.2).2.2.bootstraps
      = (newSession L c w).2.2.bootstraps ∧
    (sessionCalls L n (newSession L c w).2.1 (newSession L c w).2.2).2.2.sends
      = (newSession L c w).2.2.sends := by
  obtain ⟨hck, -, -, -, hs⟩ := newSession_spec L c w
  obtain ⟨ht, -, hc, -⟩ := hs hboot
  have h3 : (3 : Int) * Minute = 180000000000 := by simp [Minute]
  have hcalls := sessionCalls_fresh L (newSession L c w).2.1 n (newSession L c w).2.2 htok
    (fun i hi => by
      have := hwin i hi
      rw [hck, ht, hc]
      simpa [h3] using this)
  exact ⟨hcalls, congrArg (fun r => r.2.2.bootstraps) hcalls,
    congrArg (fun r => r.2.2.sends) hcalls⟩

/-- Instance of `session_reuse`: three calls, the last one exactly 3 minutes after the bootstrap. -/
theorem session_reuse_witness :
    (newSession demoLib freshConfig issuingWorld).1 = none ∧
    (newSession demoLib freshConfig issuingWorld).2.1.AuthSessionToken ≠ "" ∧
    (∀ i < 3, issuingWorld.clock (issuingWorld.ticks + 1 + i)
      ≤ issuingWorld.clock issuingWorld.ticks + 3 * Minute) ∧
    sessionCalls demoLib 3 (newSession demoLib freshConfig issuingWorld).2.1
        (newSession demoLib freshConfig issuingWorld).2.2 =
      (none, (newSession demoLib freshConfig issuingWorld).2.1,
        { (newSession demoLib freshConfig issuingWorld).2.2 with
            ticks := (newSession demoLib freshConfig issuingWorld).2.2.ticks + 3 }) :=
  ⟨rfl, by decide, by decide,
   (session_reuse demoLib freshConfig issuingWorld 3 rfl (by decide) (by decide)).1⟩

/-- After a successful `newSession` the expiry is not earlier than the last
reading, and the token is the one decoded from the 200 answer to the request
the trace ends with. -/
theorem newSession_ok (L : Lib) (c : Config) (w : World)
    (hok : (newSession L c w).1 = none) :
    (newSession L c w).2.2.lastReading ≤ (newSession L c w).2.1.sessionExpires ∧
    ∃ req resp doc,
      (newSession L c w).2.2.trace = w.trace ++
        [Event.call Fn.newSession, Event.roundTrip req, Event.call Fn.decodeJSON] ∧
      w.net ((newSession L c w).2.2.sends - 1) req = Except.ok resp ∧
      resp.StatusCode = 200 ∧ resp.Body.json = Except.ok doc ∧
      unmarshalSession L doc { AuthSessionToken := "" }
        = (none, { AuthSessionToken := (newSession L c w).2.1.AuthSessionToken }) := by
  obtain ⟨hck, -, -, -, hs⟩ := newSession_spec L c w
  obtain ⟨ht, hsend, hc, req, resp, doc, h1, h2, h3, h4, htr⟩ := hs hok
  refine ⟨?_, req, resp, doc, htr, ?_, h2, h3, h4⟩
  · rw [World.lastReading, hck, ht, hc]
    simp
  · rw [hsend]
    exact h1

/-- After a successful expiry check the expiry is not earlier than the last
reading; either nothing but the clock changed, or a bootstrap was made and the
token is the one it decoded. -/
theorem expiryCheck_ok (L : Lib) (c : Config) (w : World)
    (hok : (expiryCheck L c w).1 = none) :
    (expiryCheck L c w).2.2.lastReading ≤ (expiryCheck L c w).2.1.sessionExpires ∧
    (((expiryCheck L c w).2.1 = c ∧ (expiryCheck L c w).2.2.trace = w.trace ∧
        (expiryCheck L c w).2.2.sends = w.sends) ∨
      ∃ req resp doc,
        (expiryCheck L c w).2.2.trace = w.trace ++
          [Event.call Fn.newSession, Event.roundTrip req, Event.call Fn.decodeJSON] ∧
        w.net ((expiryCheck L c w).2.2.sends - 1) req = Except.ok resp ∧
        resp.StatusCode = 200 ∧ resp.Body.json = Except.ok doc ∧
        unmarshalSession L doc { AuthSessionToken := "" }
          = (none, { AuthSessionToken := (expiryCheck L c w).2.1.AuthSessionToken })) := by
  by_cases hx : c.sessionExpires < w.clock w.ticks
  · rw [expiryCheck_stale L c w hx] at hok ⊢
    obtain ⟨hle, hex⟩ := newSession_ok L c { w with ticks := w.ticks + 1 } hok
    exact ⟨hle, Or.inr hex⟩
  · rw [expiryCheck_fresh L c w hx]
    exact ⟨by simpa [World.lastReading] using hx, Or.inl ⟨rfl, rfl, rfl⟩⟩

/-- C3 (amended). After any `session` that returns no error, whatever the
starting `Config` and whatever the server answers: `sessionExpires` is not
earlier than the last reading of the clock the call took; and either no
bootstrap was made and the `Config` is the one before the call, whose token is
non-empty, or the trace ends with a bootstrap whose request was answered 200
and `AuthSessionToken` is exactly the token decoded from that answer.  So
`AuthSessionToken` is empty only if that answer decoded to an empty token. -/
theorem session_invariant (L : Lib) (c : Config) (w : World)
    (hok : (session L c w).1 = none) :
    (session L c w).2.2.lastReading ≤ (session L c w).2.1.sessionExpires ∧
    (((session L c w).2.1 = c ∧ c.AuthSessionToken ≠ "" ∧
        (session L c w).2.2.bootstraps = w.bootstraps) ∨
      ∃ req resp doc pre,
        (session L c w).2.2.trace = pre ++
          [Event.call Fn.newSession, Event.roundTrip req, Event.call Fn.decodeJSON] ∧
        w.net ((session L c w).2.2.sends - 1) req = Except.ok resp ∧
        resp.StatusCode = 200 ∧ resp.Body.json = Except.ok doc ∧
        unmarshalSession L doc { AuthSessionToken := "" }
          = (none, { AuthSessionToken := (session L c w).2.1.AuthSessionToken })) ∧
    ((session L c w).2.1.AuthSessionToken = "" →
      ∃ req resp doc pre,
        (session L c w).2.2.trace = pre ++
          [Event.call Fn.newSession, Event.roundTrip req, Event.call Fn.decodeJSON] ∧
        w.net ((session L c w).2.2.sends - 1) req = Except.ok resp ∧
        resp.StatusCode = 200 ∧ resp.Body.json = Except.ok doc ∧
        unmarshalSession L doc { AuthSessionToken := "" }
          = (none, { AuthSessionToken := "" })) := by
  have key : (session L c w).2.2.lastReading ≤ (session L c w).2.1.sessionExpires ∧
      (((session L c w).2.1 = c ∧ c.AuthSessionToken ≠ "" ∧
          (session L c w).2.2.bootstraps = w.bootstraps) ∨
        ∃ req resp doc pre,
          (session L c w).2.2.trace = pre ++
            [Event.call Fn.newSession, Event.roundTrip req, Event.call Fn.decodeJSON] ∧
          w.net ((session L c w).2.2.sends - 1) req = Except.ok resp ∧
          resp.StatusCode = 200 ∧ resp.Body.json = Except.ok doc ∧
          unmarshalSession L doc { AuthSessionToken := "" }
            = (none, { AuthSessionToken := (session L c w).2.1.AuthSessionToken })) := by
    by_cases h : c.AuthSessionToken = ""
    · rw [session_of_no_token L c w h] at hok ⊢
      by_cases hn : (newSession L c w).1 = none
      · simp only [hn, if_true] at hok ⊢
        obtain ⟨-, hnet, -, -, -⟩ := newSession_spec L c w
        obtain ⟨-, req1, resp1, doc1, htr1, hn1, hs1, hj1, hu1⟩ := newSession_ok L c w hn
        obtain ⟨hle, hA | ⟨req, resp, doc, htr, hn2, hs2, hj2, hu2⟩⟩ :=
          expiryCheck_ok L _ _ hok
        · obtain ⟨hc, htr, hsend⟩ := hA
          refine ⟨hle, Or.inr ⟨req1, resp1, doc1, w.trace, ?_, ?_, hs1, hj1, ?_⟩⟩
          · rw [htr, htr1]
          · rw [hsend]
            exact hn1
          · rw [hc]
            exact hu1
        · refine ⟨hle, Or.inr ⟨req, resp, doc, _, htr, ?_, hs2, hj2, hu2⟩⟩
          rw [← hnet]
          exact hn2
      · simp only [hn, if_false] at hok
    · rw [session_of_token L c w h] at hok ⊢
      obtain ⟨hle, hA | ⟨req, resp, doc, htr, hn2, hs2, hj2, hu2⟩⟩ := expiryCheck_ok L c w hok
      · obtain ⟨hc, htr, -⟩ := hA
        exact ⟨hle, Or.inl ⟨hc, h, by simp [World.bootstraps, htr]⟩⟩
      · exact ⟨hle, Or.inr ⟨req, resp, doc, _, htr, hn2, hs2, hj2, hu2⟩⟩
  refine ⟨key.1, key.2, fun hempty => ?_⟩
  rcases key.2 with ⟨hc, hne, -⟩ | ⟨req, resp, doc, pre, htr, hn, hs, hj, hu⟩
  · rw [hc] at hempty
    exact absurd hempty hne
  · rw [hempty] at hu
    exact ⟨req, resp, doc, pre, htr, hn, hs, hj, hu⟩

/-- Instance of `session_invariant`: a fresh `Config` and a server that issues
the token `T1`. -/
theorem session_invariant_witness :
    (session demoLib freshConfig issuingWorld).1 = none ∧
    (session demoLib freshConfig issuingWorld).2.2.lastReading
      ≤ (session demoLib freshConfig issuingWorld).2.1.sessionExpires ∧
    (session demoLib freshConfig issuingWorld).2.1.AuthSessionToken = "T1" :=
  ⟨rfl, (session_invariant demoLib freshConfig issuingWorld rfl).1, rfl⟩

/-- C3 (counterexample). A bootstrap answered 200 with the empty JSON object,
or with `auth_session_token` set to the empty string, makes `session` return
no error with an empty `AuthSessionToken`; and a `session` call made at
exactly `sessionExpires` returns no error with `sessionExpires` equal to, not
later than, the reading of the clock. -/
theorem session_invariant_counterexample :
    ((session demoLib freshConfig (demoWorld [1000, 1001] [Except.ok emptyObjectResponse])).1
        = none ∧
      (session demoLib freshConfig
        (demoWorld [1000, 1001] [Except.ok emptyObjectResponse])).2.1.AuthSessionToken = "") ∧
    ((session demoLib freshConfig (demoWorld [1000, 1001] [Except.ok (tokenResponse "")])).1
        = none ∧
      (session demoLib freshConfig
        (demoWorld [1000, 1001] [Except.ok (tokenResponse "")])).2.1.AuthSessionToken = "") ∧
    ((session demoLib (liveConfig "tok" 100) (demoWorld [100] [])).1 = none ∧
      ¬ ((session demoLib (liveConfig "tok" 100) (demoWorld [100] [])).2.2.lastReading
          < (session demoLib (liveConfig "tok" 100) (demoWorld [100] [])).2.1.sessionExpires)) := by
  decide

/-- C7. When `session` fails inside `Do`, `Do` returns that same error, the
request and the target are returned as they were passed in (no
`X-ADM-Auth-Session` header is added), and the world is the one `session` left:
`c.client.Do(req)` is not reached, so the request is not sent. -/
theorem Do_session_error {σ : Type} (L : Lib) (unmarshal : Unmarshal σ) (cl : depClient)
    (req : Request) (into : σ) (w : World) (err : Error) (c1 : Config) (w1 : World)
    (hs : session L cl.Config (w.enter Fn.Do) = (some err, c1, w1)) :
    Do L unmarshal cl req into w = (some err, { cl with Config := c1 }, req, into, w1) := by
  simp only [Do, hs]

/-- Instance of `Do_session_error`: the bootstrap is answered 401. -/
theorem Do_session_error_witness :
    session demoLib (clientOf freshConfig).Config (rejectingWorld.enter Fn.Do)
      = (some "Error establishing DEP session: 401 Unauthorized", freshConfig,
          (session demoLib freshConfig (rejectingWorld.enter Fn.Do)).2.2) ∧
    Do demoLib demoUnmarshal (clientOf freshConfig) demoRequest DeviceResponse.zero
        rejectingWorld
      = (some "Error establishing DEP session: 401 Unauthorized",
          { clientOf freshConfig with Config := freshConfig }, demoRequest, DeviceResponse.zero,
          (session demoLib freshConfig (rejectingWorld.enter Fn.Do)).2.2) :=
  ⟨rfl,
   Do_session_error demoLib demoUnmarshal (clientOf freshConfig) demoRequest
     DeviceResponse.zero rejectingWorld "Error establishing DEP session: 401 Unauthorized"
     freshConfig (session demoLib freshConfig (rejectingWorld.enter Fn.Do)).2.2 rfl⟩

/-- C6 (counterexample). For the 401 answer with body `invalid session` the
text of the error `Do` returns is `DEP API Error: invalid session`, which is
not the raw body. -/
theorem Do_api_error_counterexample :
    (Do demoLib demoUnmarshal (clientOf (liveConfig "tok" 5000)) demoRequest
        DeviceResponse.zero rejectingWorld).1 = some "DEP API Error: invalid session" ∧
    (Do demoLib demoUnmarshal (clientOf (liveConfig "tok" 5000)) demoRequest
        DeviceResponse.zero rejectingWorld).1 ≠ some invalidSessionResponse.Body.raw := by
  decide

/-- C6 (amended). When `session` succeeds and the answer to the request has a
status other than 200, `Do` returns the error whose text is `DEP API Error: `
followed by the raw body, returns the target as it was passed in, and leaves
the world as the HTTP exchange left it: `decodeJSON` is not entered. -/
theorem Do_api_error {σ : Type} (L : Lib) (unmarshal : Unmarshal σ) (cl : depClient)
    (req : Request) (into : σ) (w : World) (c1 : Config) (w1 : World) (resp : Response)
    (hs : session L cl.Config (w.enter Fn.Do) = (none, c1, w1))
    (hnet : w1.net w1.sends
      { req with Header := req.Header.Add L "X-ADM-Auth-Session" c1.AuthSessionToken }
        = Except.ok resp)
    (hstatus : resp.StatusCode ≠ 200) :
    Do L unmarshal cl req into w =
      (some ("DEP API Error: " ++ resp.Body.raw), { cl with Config := c1 },
        { req with Header := req.Header.Add L "X-ADM-Auth-Session" c1.AuthSessionToken }, into,
        (clientDo w1
          { req with Header := req.Header.Add L "X-ADM-Auth-Session" c1.AuthSessionToken }).2) ∧
    (Do L unmarshal cl req into w).2.2.2.2.calls Fn.decodeJSON = w1.calls Fn.decodeJSON := by
  have h : Do L unmarshal cl req into w =
      (some ("DEP API Error: " ++ resp.Body.raw), { cl with Config := c1 },
        { req with Header := req.Header.Add L "X-ADM-Auth-Session" c1.AuthSessionToken }, into,
        (clientDo w1
          { req with Header := req.Header.Add L "X-ADM-Auth-Session" c1.AuthSessionToken }).2) := by
    simp only [Do, hs, clientDo, hnet, StatusOK, ne_eq, hstatus, not_false_eq_true, if_true]
  refine ⟨h, ?_⟩
  rw [h]
  simp [clientDo, World.calls, List.count_append]

/-- Instance of `Do_api_error`: a live session and a request answered 401. -/
theorem Do_api_error_witness :
    session demoLib (clientOf (liveConfig "tok" 5000)).Config (rejectingWorld.enter Fn.Do)
      = (none, liveConfig "tok" 5000,
          { rejectingWorld.enter Fn.Do with ticks := 1 }) ∧
    invalidSessionResponse.StatusCode ≠ 200 ∧
    (Do demoLib demoUnmarshal (clientOf (liveConfig "tok" 5000)) demoRequest
        DeviceResponse.zero rejectingWorld).1
      = some ("DEP API Error: " ++ invalidSessionResponse.Body.raw) ∧
    (Do demoLib demoUnmarshal (clientOf (liveConfig "tok" 5000)) demoRequest
        DeviceResponse.zero rejectingWorld).2.2.2.1 = DeviceResponse.zero ∧
    (Do demoLib demoUnmarshal (clientOf (liveConfig "tok" 5000)) demoRequest
        DeviceResponse.zero rejectingWorld).2.2.2.2.calls Fn.decodeJSON = 0 :=
  have h := Do_api_error demoLib demoUnmarshal (clientOf (liveConfig "tok" 5000)) demoRequest
    DeviceResponse.zero rejectingWorld (liveConfig "tok" 5000)
    { rejectingWorld.enter Fn.Do with ticks := 1 } invalidSessionResponse rfl rfl (by decide)
  ⟨rfl, by decide, congrArg (fun r => r.1) h.1, congrArg (fun r => r.2.2.2.1) h.1, h.2⟩

end Dep
